import Mathlib

/-!
Verification of the CollabDoc real-time collaboration core.

This file shallowly embeds the socket event handlers of
`src/backend/src/socket.ts` (exported through `index.ts`), the annotation
model of `src/backend/src/models/annotation.model.ts`, and the access check
of `src/backend/src/models/document.model.ts` as pure Lean functions, and
proves the specification's claims about them.

Naming note: the source's "Annotation" record is called `Annot` here
(`createAnnot` for the `create-annotation` handler, and so on); all field
names follow the source.  The JavaScript `Map` objects (`documentUsers` and
its inner per-document user maps) are embedded as association lists with
JS-`Map` semantics: `set` updates in place or appends, `delete` removes,
iteration follows insertion order.  String object ids are embedded as `Nat`.
-/

namespace CollabDoc

/-- The `ISocketUser` record attached to an authenticated socket
(socket.ts lines 148-154): identity plus the connection's socket id. -/
structure SocketUser where
  id : Nat
  username : String
  displayName : String
  color : String
  socketId : Nat
deriving DecidableEq, Repr

/-- The public projection of a user sent in `user-joined` payloads
(socket.ts lines 292-300): everything except the socket id. -/
structure PublicUser where
  id : Nat
  username : String
  displayName : String
  color : String
deriving DecidableEq, Repr

/-- Projection used when broadcasting `user-joined`. -/
def SocketUser.toPublic (u : SocketUser) : PublicUser :=
  { id := u.id, username := u.username, displayName := u.displayName, color := u.color }

/-- The fields of a document consumed by the core (document.model.ts):
`owner` and `collaborators`. -/
structure Doc where
  owner : Nat
  collaborators : List Nat
deriving DecidableEq, Repr

/-- An annotation record (annotation.model.ts, `IAnnotationDocument`). -/
structure Annot where
  id : Nat
  documentId : Nat
  userId : Nat
  startOffset : Nat
  endOffset : Nat
  selectedText : String
  comment : String
  color : String
  isResolved : Bool
deriving DecidableEq, Repr

/-! Association-list embedding of JavaScript `Map`. -/

/-- `Map.get` / `Map.has`: first entry with the key, if any. -/
def alGet {α : Type} : List (Nat × α) → Nat → Option α
  | [], _ => none
  | (k', v) :: t, k => if k' = k then some v else alGet t k

/-- `Map.set`: update in place if the key exists, else append (JS `Map`
keeps insertion order and keeps an updated key at its original position). -/
def alSet {α : Type} : List (Nat × α) → Nat → α → List (Nat × α)
  | [], k, v => [(k, v)]
  | (k', v') :: t, k, v => if k' = k then (k, v) :: t else (k', v') :: alSet t k v

/-- `Map.delete`: remove the entry with the key, if any. -/
def alDelete {α : Type} : List (Nat × α) → Nat → List (Nat × α)
  | [], _ => []
  | (k', v) :: t, k => if k' = k then t else (k', v) :: alDelete t k

/-- `Map.has`. -/
def alHas {α : Type} (m : List (Nat × α)) (k : Nat) : Bool :=
  (alGet m k).isSome

/-- The module-level `documentUsers : Map<string, Map<string, ISocketUser>>`
of socket.ts line 157, mapping document id to the per-document user map. -/
abbrev Registry := List (Nat × List (Nat × SocketUser))

/-- `hasDocumentAccess` (socket.ts lines 195-209): owner or collaborator;
false for a nonexistent document. -/
def hasDocumentAccess (docs : List (Nat × Doc)) (userId documentId : Nat) : Bool :=
  match alGet docs documentId with
  | none => false
  | some document =>
      document.owner == userId || document.collaborators.any (fun c => c == userId)

/-- `getActiveUsers` (socket.ts lines 214-217): the values of the
document's user map, in insertion order. -/
def getActiveUsers (documentUsers : Registry) (documentId : Nat) : List SocketUser :=
  match alGet documentUsers documentId with
  | none => []
  | some users => users.map Prod.snd

/-- Every observable effect of a handler, in program order: database writes
performed through the store, targeted emits (`socket.emit`), broadcasts to a
room excluding the sender (`socket.to(room).emit`: `userJoined`, `userLeft`)
and broadcasts to the whole room (`io.to(room).emit`: the three annotation
events).  Annotation broadcasts carry the record; the `user` display fields
joined in by `populate` are derived data and omitted. -/
inductive Action where
  | emitError (socketId : Nat) (message : String)
  | userJoined (documentId senderSocket : Nat) (user : PublicUser)
  | userLeft (documentId senderSocket userId : Nat)
  | activeUsers (socketId : Nat) (users : List SocketUser) (documentId : Nat)
  | dbInsert (a : Annot)
  | dbUpdate (a : Annot)
  | dbDelete (annotId : Nat)
  | annotCreated (documentId : Nat) (a : Annot)
  | annotUpdated (documentId : Nat) (a : Annot)
  | annotDeleted (documentId annotId : Nat)
deriving DecidableEq, Repr

/-- Server-side shared state: the presence registry and the annotation
collection (with the next fresh record id). -/
structure ServerState where
  documentUsers : Registry
  annots : List Annot
  nextId : Nat
deriving DecidableEq, Repr

/-- Per-connection state: the authenticated user stored on the socket and
the `doc:` rooms the socket is currently a member of. -/
structure Conn where
  user : SocketUser
  rooms : List Nat
deriving DecidableEq, Repr

/-- `Annotation.findOne` on the duplicate-prevention tuple
(socket.ts lines 358-363, annotation.model.ts lines 101-106). -/
def dupExists (db : List Annot) (documentId userId startOffset endOffset : Nat) : Bool :=
  db.any fun a =>
    a.documentId == documentId && a.userId == userId &&
    a.startOffset == startOffset && a.endOffset == endOffset

/-- The mongoose schema validators of annotation.model.ts: nonnegative
`startOffset` (trivial over `Nat`), `endOffset > startOffset`, required
nonempty `selectedText` (max 10000), required nonempty `comment`
(max 5000), required `color`. -/
def validAnnot (a : Annot) : Bool :=
  decide (a.startOffset < a.endOffset) &&
  (a.selectedText != "") && decide (a.selectedText.length ≤ 10000) &&
  (a.comment != "") && decide (a.comment.length ≤ 5000) &&
  (a.color != "")

/-- `Annotation.findById`. -/
def findById (db : List Annot) (annotId : Nat) : Option Annot :=
  db.find? fun a => a.id == annotId

/-- The `document?.owner.toString() === user.id` check of the
`delete-annotation` handler (socket.ts lines 469-470): false when the
document does not exist. -/
def isDocOwner (docs : List (Nat × Doc)) (documentId userId : Nat) : Bool :=
  match alGet docs documentId with
  | none => false
  | some document => document.owner == userId

/-- Persisting a mutated document via `save`: the stored record with this
id is replaced. -/
def replaceById (db : List Annot) (a : Annot) : List Annot :=
  db.map fun x => if x.id == a.id then a else x

/-- `annotation.deleteOne()`. -/
def removeById (db : List Annot) (annotId : Nat) : List Annot :=
  db.filter fun x => x.id != annotId

/-! The socket event handlers.  Each handler is a function from the shared
server state, the connection state and the inbound message to the new
states plus the trace of effects, in the order the source performs them. -/

/-- One iteration of the leave-previous-rooms loop inside the
`join-document` handler (socket.ts lines 261-279): leave the room, remove
the user from that document's user map, garbage-collect an emptied map, and
otherwise notify the remaining members. -/
def leaveRoomStep (user : SocketUser) (acc : Registry × List Action) (docId : Nat) :
    Registry × List Action :=
  match alGet acc.1 docId with
  | none => acc
  | some users =>
      let users' := alDelete users user.id
      if users'.length = 0 then
        (alDelete acc.1 docId, acc.2)
      else
        (alSet acc.1 docId users', acc.2 ++ [Action.userLeft docId user.socketId user.id])

/-- The `join-document` handler (socket.ts lines 244-313).  The source
early-returns with a targeted error when `hasDocumentAccess` is false;
otherwise it leaves every current `doc:` room (notifying those rooms),
joins the new room, registers the user in the presence registry, notifies
the room's other members, and sends the `active-users` snapshot — taken
after the registration — back to the joiner only. -/
def joinDocument (docs : List (Nat × Doc)) (st : ServerState) (conn : Conn)
    (documentId : Nat) : ServerState × Conn × List Action :=
  if hasDocumentAccess docs conn.user.id documentId then
    let prev := conn.rooms.foldl (leaveRoomStep conn.user) (st.documentUsers, [])
    let inner := (alGet prev.1 documentId).getD []
    let du' := alSet prev.1 documentId (alSet inner conn.user.id conn.user)
    ({ st with documentUsers := du' },
     { conn with rooms := [documentId] },
     prev.2 ++
       [Action.userJoined documentId conn.user.socketId conn.user.toPublic,
        Action.activeUsers conn.user.socketId (getActiveUsers du' documentId) documentId])
  else
    (st, conn, [Action.emitError conn.user.socketId "Access denied to document"])

/-- The `leave-document` handler (socket.ts lines 318-340): always
`socket.leave`; then, if the document has a user map, delete the
requester's user id from it, garbage-collect it when emptied, and
otherwise broadcast `user-left` to the room.  The source never checks that
this connection was actually in the room, and never emits an error. -/
def leaveDocument (st : ServerState) (conn : Conn) (documentId : Nat) :
    ServerState × Conn × List Action :=
  let conn' := { conn with rooms := conn.rooms.erase documentId }
  match alGet st.documentUsers documentId with
  | none => (st, conn', [])
  | some users =>
      let users' := alDelete users conn.user.id
      if users'.length = 0 then
        ({ st with documentUsers := alDelete st.documentUsers documentId }, conn', [])
      else
        ({ st with documentUsers := alSet st.documentUsers documentId users' }, conn',
         [Action.userLeft documentId conn.user.socketId conn.user.id])

/-- The `create-annotation` payload (socket.ts line 345): the client sends
the annotation object; the handler reads its `documentId`, offsets,
`selectedText` and `comment`. -/
structure CreateMsg where
  documentId : Nat
  startOffset : Nat
  endOffset : Nat
  selectedText : String
  comment : String
deriving DecidableEq, Repr

/-- The `create-annotation` handler (socket.ts lines 345-399).  Source
order: access check (targeted "Access denied" on failure); application-level
duplicate pre-check (targeted "Duplicate annotation"); then
`Annotation.create`, which runs the schema validators, the pre-save
duplicate hook, and the unique-index insert — each of those three failures
is thrown, caught by the surrounding `catch`, and surfaces as the targeted
"Failed to create annotation" error.  Only after a successful insert is
`annotation-created` broadcast to the whole room. -/
def createAnnot (docs : List (Nat × Doc)) (st : ServerState) (conn : Conn)
    (msg : CreateMsg) : ServerState × List Action :=
  let documentId := msg.documentId
  if hasDocumentAccess docs conn.user.id documentId then
    if dupExists st.annots documentId conn.user.id msg.startOffset msg.endOffset then
      (st, [Action.emitError conn.user.socketId "Duplicate annotation"])
    else
      let a : Annot :=
        { id := st.nextId, documentId := documentId, userId := conn.user.id,
          startOffset := msg.startOffset, endOffset := msg.endOffset,
          selectedText := msg.selectedText, comment := msg.comment.trim,
          color := conn.user.color, isResolved := false }
      if validAnnot a then
        -- pre-save hook duplicate check (annotation.model.ts lines 98-115);
        -- its code-11000 error is caught by the handler's generic catch
        if dupExists st.annots documentId conn.user.id msg.startOffset msg.endOffset then
          (st, [Action.emitError conn.user.socketId "Failed to create annotation"])
        -- unique-index insert (annotation.model.ts lines 79-82); an E11000
        -- violation is likewise caught by the generic catch
        else if dupExists st.annots documentId conn.user.id msg.startOffset msg.endOffset then
          (st, [Action.emitError conn.user.socketId "Failed to create annotation"])
        else
          ({ st with annots := a :: st.annots, nextId := st.nextId + 1 },
           [Action.dbInsert a, Action.annotCreated documentId a])
      else
        (st, [Action.emitError conn.user.socketId "Failed to create annotation"])
  else
    (st, [Action.emitError conn.user.socketId "Access denied"])

/-- The `update-annotation` payload (socket.ts line 404): the client sends
an annotation object; the handler reads only `_id`, `comment` and
`isResolved`.  The client-declared `documentId` field of the payload is
carried here to state that the handler never consults it. -/
structure UpdateMsg where
  id : Nat
  comment : Option String
  isResolved : Option Bool
  documentId : Option Nat
deriving DecidableEq, Repr

/-- The `update-annotation` handler (socket.ts lines 404-450): look up the
record by `_id` ("Annotation not found" when absent); only the creator may
update ("Cannot update others annotations"); apply the partial update and
`save` (whose validation failure is caught as "Failed to update
annotation"); broadcast `annotation-updated` to the room derived from the
stored record's `documentId`.  No document-access check is performed. -/
def updateAnnot (st : ServerState) (conn : Conn) (msg : UpdateMsg) :
    ServerState × List Action :=
  match findById st.annots msg.id with
  | none => (st, [Action.emitError conn.user.socketId "Annotation not found"])
  | some existing =>
      if existing.userId == conn.user.id then
        let updated : Annot :=
          { existing with
            comment := match msg.comment with
              | some c => c.trim
              | none => existing.comment,
            isResolved := msg.isResolved.getD existing.isResolved }
        if validAnnot updated then
          let documentId := existing.documentId
          ({ st with annots := replaceById st.annots updated },
           [Action.dbUpdate updated, Action.annotUpdated documentId updated])
        else
          (st, [Action.emitError conn.user.socketId "Failed to update annotation"])
      else
        (st, [Action.emitError conn.user.socketId "Cannot update others annotations"])

/-- The `delete-annotation` payload (socket.ts line 455): the handler
destructures only `annotationId`; a client-supplied document id field is
carried here to state that it is never consulted. -/
structure DeleteMsg where
  annotId : Nat
  documentId : Option Nat
deriving DecidableEq, Repr

/-- The `delete-annotation` handler (socket.ts lines 455-491): look up the
record ("Annotation not found" when absent), derive `documentId` from the
stored record, authorize creator-or-document-owner ("Cannot delete this
annotation" otherwise), delete, and broadcast `annotation-deleted` carrying
only the annotation id and document id to the whole room. -/
def deleteAnnot (docs : List (Nat × Doc)) (st : ServerState) (conn : Conn)
    (msg : DeleteMsg) : ServerState × List Action :=
  match findById st.annots msg.annotId with
  | none => (st, [Action.emitError conn.user.socketId "Annotation not found"])
  | some a =>
      let documentId := a.documentId
      let isOwner := isDocOwner docs documentId conn.user.id
      let isCreator := a.userId == conn.user.id
      if !isCreator && !isOwner then
        (st, [Action.emitError conn.user.socketId "Cannot delete this annotation"])
      else
        ({ st with annots := removeById st.annots msg.annotId },
         [Action.dbDelete msg.annotId,
          Action.annotDeleted documentId msg.annotId])

/-- One entry of the `documentUsers.forEach` sweep in the `disconnect`
handler (socket.ts lines 496-515): if the document's user map contains the
disconnecting user, remove them, garbage-collect an emptied map, and
otherwise broadcast `user-left` to the room. -/
def disconnectStep (user : SocketUser) (acc : Registry × List Action)
    (entry : Nat × List (Nat × SocketUser)) : Registry × List Action :=
  if alHas entry.2 user.id then
    let users' := alDelete entry.2 user.id
    if users'.length = 0 then acc
    else (acc.1 ++ [(entry.1, users')],
          acc.2 ++ [Action.userLeft entry.1 user.socketId user.id])
  else (acc.1 ++ [entry], acc.2)

/-- The `disconnect` handler: sweep every registry entry as above. -/
def disconnectHandler (st : ServerState) (conn : Conn) : ServerState × List Action :=
  let r := st.documentUsers.foldl (disconnectStep conn.user) ([], [])
  ({ st with documentUsers := r.1 }, r.2)

/-! Interleaving model of concurrent `create-annotation` requests.

A request's effect on the shared annotation collection happens at three
separate asynchronous store operations, each individually atomic:
the handler's duplicate pre-check (`Annotation.findOne`, socket.ts lines
358-363); the `save` pipeline's validation plus pre-save duplicate hook
(annotation.model.ts lines 98-115); and the document insert, which MongoDB
checks atomically against the unique compound index on
`(documentId, startOffset, endOffset, userId)` (annotation.model.ts lines
79-82).  Two concurrent requests interleave these atomic operations in an
arbitrary order.  A pre-check duplicate is reported to the requester as
"Duplicate annotation"; a duplicate detected by the hook or by the unique
index is thrown and caught by the handler's generic `catch`, which reports
"Failed to create annotation". -/

/-- Outcome of one create request. -/
inductive COutcome where
  | success
  | invalid
  | dupPrecheck
  | dupHook
  | dupIndex
deriving DecidableEq, Repr

/-- Progress of one create request through its three atomic store
operations. -/
inductive Phase where
  | start
  | preChecked
  | readyInsert
  | done (o : COutcome)
deriving DecidableEq, Repr

/-- The targeted error message the requester receives for each outcome
(`none` on success): only the handler's own pre-check produces the
"Duplicate annotation" message; every failure inside `Annotation.create`
reaches the generic `catch` (socket.ts lines 395-398). -/
def outcomeMessage : COutcome → Option String
  | .success => none
  | .invalid => some "Failed to create annotation"
  | .dupPrecheck => some "Duplicate annotation"
  | .dupHook => some "Failed to create annotation"
  | .dupIndex => some "Failed to create annotation"

/-- One atomic store operation of a create request for record `a`. -/
def stepCreate (db : List Annot) (a : Annot) : Phase → List Annot × Phase
  | .start =>
      if dupExists db a.documentId a.userId a.startOffset a.endOffset then
        (db, .done .dupPrecheck)
      else (db, .preChecked)
  | .preChecked =>
      if validAnnot a then
        if dupExists db a.documentId a.userId a.startOffset a.endOffset then
          (db, .done .dupHook)
        else (db, .readyInsert)
      else (db, .done .invalid)
  | .readyInsert =>
      -- the unique-index check and the insert are one atomic step
      if dupExists db a.documentId a.userId a.startOffset a.endOffset then
        (db, .done .dupIndex)
      else (a :: db, .done .success)
  | .done o => (db, .done o)

/-- Joint state of two in-flight create requests over the shared
collection. -/
structure Race where
  db : List Annot
  pa : Phase
  pb : Phase
deriving DecidableEq, Repr

/-- Scheduler step: `true` runs one atomic operation of request A (for
record `a`), `false` one of request B (for record `b`). -/
def raceStep (a b : Annot) (r : Race) : Bool → Race
  | true =>
      let s := stepCreate r.db a r.pa
      { r with db := s.1, pa := s.2 }
  | false =>
      let s := stepCreate r.db b r.pb
      { r with db := s.1, pb := s.2 }

/-- Run a whole schedule of interleaved atomic operations. -/
def raceRun (a b : Annot) (r : Race) : List Bool → Race
  | [] => r
  | c :: cs => raceRun a b (raceStep a b r c) cs

/-- Two records agree on the duplicate-prevention tuple
`(documentId, userId, startOffset, endOffset)`. -/
def sameTuple (x a : Annot) : Bool :=
  x.documentId == a.documentId && x.userId == a.userId &&
  x.startOffset == a.startOffset && x.endOffset == a.endOffset

/-- Number of stored records sharing `a`'s duplicate-prevention tuple. -/
def tupleCount (db : List Annot) (a : Annot) : Nat :=
  (db.filter fun x => sameTuple x a).length

/-- A finished phase. -/
def isDone : Phase → Bool
  | .done _ => true
  | _ => false

/-- A successfully finished phase. -/
def isSuccess : Phase → Bool
  | .done .success => true
  | _ => false

/-- A phase that finished with one of the three duplicate-detection
failures. -/
def isDupFail : Phase → Bool
  | .done .dupPrecheck => true
  | .done .dupHook => true
  | .done .dupIndex => true
  | _ => false

/-- Number of requests that have succeeded. -/
def succCount (r : Race) : Nat :=
  (if isSuccess r.pa then 1 else 0) + (if isSuccess r.pb then 1 else 0)

/-- Inductive invariant of the race for two valid requests with the same
tuple: the store holds exactly one tuple copy per success, never more than
one in total, a duplicate failure only ever happens after the other request
succeeded, and validation never fails. -/
def RaceInv (a : Annot) (r : Race) : Prop :=
  tupleCount r.db a = succCount r ∧
  succCount r ≤ 1 ∧
  (isDupFail r.pa = true → isSuccess r.pb = true) ∧
  (isDupFail r.pb = true → isSuccess r.pa = true) ∧
  r.pa ≠ .done .invalid ∧ r.pb ≠ .done .invalid

/-! Trace predicates and derived views used by the theorems. -/

/-- Checks, walking a trace left to right, that every annotation broadcast
is preceded by the corresponding kind of completed store operation
(insert for `annotation-created`, update for `annotation-updated`, delete
for `annotation-deleted`). -/
def traceOrdered (seenIns seenUpd seenDel : Bool) : List Action → Bool
  | [] => true
  | act :: rest =>
      match act with
      | .dbInsert _ => traceOrdered true seenUpd seenDel rest
      | .dbUpdate _ => traceOrdered seenIns true seenDel rest
      | .dbDelete _ => traceOrdered seenIns seenUpd true rest
      | .annotCreated _ _ => seenIns && traceOrdered seenIns seenUpd seenDel rest
      | .annotUpdated _ _ => seenUpd && traceOrdered seenIns seenUpd seenDel rest
      | .annotDeleted _ _ => seenDel && traceOrdered seenIns seenUpd seenDel rest
      | _ => traceOrdered seenIns seenUpd seenDel rest

/-- Checks that every `annotation-created` broadcast in a trace carries a
record that is present in the given (final) store. -/
def broadcastsBacked (db : List Annot) : List Action → Bool
  | [] => true
  | act :: rest =>
      match act with
      | .annotCreated _ a => decide (a ∈ db) && broadcastsBacked db rest
      | _ => broadcastsBacked db rest

/-- The registry produced by the `disconnect` sweep, entry by entry. -/
def sweepRegistry (user : SocketUser) : Registry → Registry
  | [] => []
  | e :: t =>
      (if alHas e.2 user.id then
         if (alDelete e.2 user.id).length = 0 then []
         else [(e.1, alDelete e.2 user.id)]
       else [e]) ++ sweepRegistry user t

/-- The `user-left` broadcasts produced by the `disconnect` sweep. -/
def sweepEvents (user : SocketUser) : Registry → List Action
  | [] => []
  | e :: t =>
      (if alHas e.2 user.id then
         if (alDelete e.2 user.id).length = 0 then []
         else [Action.userLeft e.1 user.socketId user.id]
       else []) ++ sweepEvents user t

/-! Concrete fixtures used by witnesses and counterexamples. -/

/-- A user: owner of the fixture documents, socket 10. -/
def uA : SocketUser := ⟨1, "alice", "Alice", "red", 10⟩

/-- A user: collaborator, socket 20. -/
def uB : SocketUser := ⟨2, "bob", "Bob", "blue", 20⟩

/-- A user: collaborator and annotation creator, socket 30. -/
def uC : SocketUser := ⟨3, "carol", "Carol", "green", 30⟩

/-- Fixture documents 5 and 6: owned by user 1 with collaborators 2 and 3. -/
def docsMain : List (Nat × Doc) := [(5, ⟨1, [2, 3]⟩), (6, ⟨1, [2, 3]⟩)]

/-- Fixture where document 5 is owned by user 9 with no collaborators, so
users 1-3 have no access. -/
def docsForeign : List (Nat × Doc) := [(5, ⟨9, []⟩)]

/-- A stored annotation: record 1 by user 3 on document 5, range 10-20. -/
def aRec : Annot := ⟨1, 5, 3, 10, 20, "text", "note", "green", false⟩

/-- Fixture server state: users 1 and 2 present in document 5's room, and
`aRec` stored. -/
def stTwo : ServerState := ⟨[(5, [(1, uA), (2, uB)])], [aRec], 2⟩

/-- First racing create request: record 1 by user 7 on document 5,
range 10-20. -/
def raceA : Annot := ⟨1, 5, 7, 10, 20, "t", "c", "red", false⟩

/-- Second racing create request: identical duplicate-prevention tuple,
fresh record id. -/
def raceB : Annot := ⟨2, 5, 7, 10, 20, "t", "c", "red", false⟩

/-- A schedule in which both requests pass the handler pre-check before
either inserts: A's three operations complete first, then B resumes. -/
def raceSched : List Bool := [true, false, true, true, false]

/-- The record produced by applying an `update-annotation` message's
partial update to a stored record (the mutation performed by socket.ts
lines 422-427 before `save`). -/
def updRecord (a : Annot) (msg : UpdateMsg) : Annot :=
  { a with
    comment := match msg.comment with
      | some c => c.trim
      | none => a.comment,
    isResolved := msg.isResolved.getD a.isResolved }

/-! Helper lemmas. -/

theorem alGet_alSet_self {α : Type} (m : List (Nat × α)) (k : Nat) (v : α) :
    alGet (alSet m k v) k = some v := by
  induction m with
  | nil => simp [alSet, alGet]
  | cons e t ih =>
      obtain ⟨k', v'⟩ := e
      by_cases h : k' = k
      · simp [alSet, alGet, h]
      · simp [alSet, alGet, h, ih]

theorem mem_values_alSet {α : Type} (m : List (Nat × α)) (k : Nat) (v : α) :
    v ∈ (alSet m k v).map Prod.snd := by
  induction m with
  | nil => simp [alSet]
  | cons e t ih =>
      obtain ⟨k', v'⟩ := e
      by_cases h : k' = k
      · simp [alSet, h]
      · simp only [alSet, if_neg h, List.map_cons, List.mem_cons]
        exact Or.inr ih

theorem sameTuple_refl (a : Annot) : sameTuple a a = true := by
  simp [sameTuple]

theorem sameTuple_iff (x a : Annot) :
    sameTuple x a = true ↔
      x.documentId = a.documentId ∧ x.userId = a.userId ∧
      x.startOffset = a.startOffset ∧ x.endOffset = a.endOffset := by
  simp [sameTuple, Bool.and_eq_true, and_assoc]

theorem dupExists_eq_any (db : List Annot) (a : Annot) :
    dupExists db a.documentId a.userId a.startOffset a.endOffset =
      db.any fun x => sameTuple x a := rfl

theorem dupExists_false_iff (db : List Annot) (a : Annot) :
    dupExists db a.documentId a.userId a.startOffset a.endOffset = false ↔
      tupleCount db a = 0 := by
  rw [dupExists_eq_any]
  induction db with
  | nil => simp [tupleCount]
  | cons x t ih =>
      by_cases h : sameTuple x a = true
      · simp [tupleCount, List.filter_cons, h]
      · simp only [List.any_cons, Bool.or_eq_false_iff]
        simp only [tupleCount, List.filter_cons] at ih ⊢
        simp [h, ih]

theorem tupleCount_pos_of_dup (db : List Annot) (a : Annot)
    (h : dupExists db a.documentId a.userId a.startOffset a.endOffset = true) :
    0 < tupleCount db a := by
  by_cases h0 : tupleCount db a = 0
  · exact absurd h (by simp [(dupExists_false_iff db a).2 h0])
  · omega

theorem tupleCount_cons_of_same (db : List Annot) (x a : Annot)
    (h : sameTuple x a = true) :
    tupleCount (x :: db) a = tupleCount db a + 1 := by
  simp [tupleCount, List.filter_cons, h]

theorem dupExists_congr (db : List Annot) (a b : Annot)
    (hab : sameTuple b a = true) :
    dupExists db b.documentId b.userId b.startOffset b.endOffset =
      dupExists db a.documentId a.userId a.startOffset a.endOffset := by
  obtain ⟨h1, h2, h3, h4⟩ := (sameTuple_iff b a).1 hab
  rw [h1, h2, h3, h4]

/-- One atomic operation of one request preserves the race invariant,
stated one-sidedly: `p` is the stepping request's phase, `q` the other
request's phase, and `x` the stepping request's record (sharing `a`'s
duplicate-prevention tuple). -/
theorem stepCreate_preserves (a x : Annot) (hx : sameTuple x a = true)
    (hvx : validAnnot x = true) (db : List Annot) (p q : Phase)
    (hcount : tupleCount db a =
      (if isSuccess p then 1 else 0) + (if isSuccess q then 1 else 0))
    (hle : (if isSuccess p then 1 else 0) + (if isSuccess q then 1 else 0) ≤ 1)
    (hfp : isDupFail p = true → isSuccess q = true)
    (hfq : isDupFail q = true → isSuccess p = true)
    (hip : p ≠ .done .invalid) :
    (tupleCount (stepCreate db x p).1 a =
      (if isSuccess (stepCreate db x p).2 then 1 else 0) +
        (if isSuccess q then 1 else 0)) ∧
    ((if isSuccess (stepCreate db x p).2 then 1 else 0) +
        (if isSuccess q then 1 else 0) ≤ 1) ∧
    (isDupFail (stepCreate db x p).2 = true → isSuccess q = true) ∧
    (isDupFail q = true → isSuccess (stepCreate db x p).2 = true) ∧
    (stepCreate db x p).2 ≠ .done .invalid := by
  cases p with
  | start =>
      cases hd : dupExists db x.documentId x.userId x.startOffset x.endOffset with
      | true =>
          have hd' : dupExists db a.documentId a.userId a.startOffset a.endOffset = true := by
            rw [← dupExists_congr db a x hx]; exact hd
          have hpos := tupleCount_pos_of_dup db a hd'
          have hq : isSuccess q = true := by
            cases hq : isSuccess q
            · rw [hq] at hcount; simp [isSuccess] at hcount; omega
            · rfl
          refine ⟨?_, ?_, ?_, ?_, ?_⟩
          · simp only [stepCreate, hd, if_true]
            simpa [isSuccess, hq] using hcount
          · simp only [stepCreate, hd, hq]
            simp [isSuccess]
          · intro _; exact hq
          · intro hdq
            have := hfq hdq
            simp [isSuccess] at this
          · simp [stepCreate, hd]
      | false =>
          refine ⟨?_, ?_, ?_, ?_, ?_⟩
          · simp only [stepCreate, hd]
            simpa [isSuccess] using hcount
          · simp only [stepCreate, hd]
            simpa [isSuccess] using hle
          · intro hcontra
            simp [stepCreate, hd, isDupFail] at hcontra
          · intro hdq
            have := hfq hdq
            simp [isSuccess] at this
          · simp [stepCreate, hd]
  | preChecked =>
      cases hd : dupExists db x.documentId x.userId x.startOffset x.endOffset with
      | true =>
          have hd' : dupExists db a.documentId a.userId a.startOffset a.endOffset = true := by
            rw [← dupExists_congr db a x hx]; exact hd
          have hpos := tupleCount_pos_of_dup db a hd'
          have hq : isSuccess q = true := by
            cases hq : isSuccess q
            · rw [hq] at hcount; simp [isSuccess] at hcount; omega
            · rfl
          refine ⟨?_, ?_, ?_, ?_, ?_⟩
          · simp only [stepCreate, hd, hvx, if_true]
            simpa [isSuccess, hq] using hcount
          · simp only [stepCreate, hd, hvx, hq]
            simp [isSuccess]
          · intro _; exact hq
          · intro hdq
            have := hfq hdq
            simp [isSuccess] at this
          · simp [stepCreate, hd, hvx]
      | false =>
          refine ⟨?_, ?_, ?_, ?_, ?_⟩
          · simp only [stepCreate, hd, hvx, if_true]
            simpa [isSuccess] using hcount
          · simp only [stepCreate, hd, hvx, if_true]
            simpa [isSuccess] using hle
          · intro hcontra
            simp [stepCreate, hd, hvx, isDupFail] at hcontra
          · intro hdq
            have := hfq hdq
            simp [isSuccess] at this
          · simp [stepCreate, hd, hvx]
  | readyInsert =>
      cases hd : dupExists db x.documentId x.userId x.startOffset x.endOffset with
      | true =>
          have hd' : dupExists db a.documentId a.userId a.startOffset a.endOffset = true := by
            rw [← dupExists_congr db a x hx]; exact hd
          have hpos := tupleCount_pos_of_dup db a hd'
          have hq : isSuccess q = true := by
            cases hq : isSuccess q
            · rw [hq] at hcount; simp [isSuccess] at hcount; omega
            · rfl
          refine ⟨?_, ?_, ?_, ?_, ?_⟩
          · simp only [stepCreate, hd, if_true]
            simpa [isSuccess, hq] using hcount
          · simp only [stepCreate, hd, hq]
            simp [isSuccess]
          · intro _; exact hq
          · intro hdq
            have := hfq hdq
            simp [isSuccess] at this
          · simp [stepCreate, hd]
      | false =>
          have hd' : dupExists db a.documentId a.userId a.startOffset a.endOffset = false := by
            rw [← dupExists_congr db a x hx]; exact hd
          have hzero : tupleCount db a = 0 := (dupExists_false_iff db a).1 hd'
          have hq : isSuccess q = false := by
            cases hq : isSuccess q
            · rfl
            · rw [hq] at hcount; simp [isSuccess] at hcount; omega
          refine ⟨?_, ?_, ?_, ?_, ?_⟩
          · simp only [stepCreate, hd, Bool.false_eq_true, if_false]
            rw [tupleCount_cons_of_same db x a hx, hzero]
            simp only [hq]
            simp [isSuccess]
          · simp only [stepCreate, hd, hq]
            simp [isSuccess]
          · intro hcontra
            simp [stepCreate, hd, isDupFail] at hcontra
          · intro _
            simp [stepCreate, hd, isSuccess]
          · simp [stepCreate, hd]
  | done o =>
      exact ⟨hcount, hle, hfp, hfq, hip⟩

/-- One scheduler step preserves the race invariant. -/
theorem raceStep_preserves (a b : Annot) (hab : sameTuple b a = true)
    (hva : validAnnot a = true) (hvb : validAnnot b = true)
    (r : Race) (c : Bool) (h : RaceInv a r) : RaceInv a (raceStep a b r c) := by
  obtain ⟨db, pa, pb⟩ := r
  obtain ⟨hcount, hle, hfa, hfb, hia, hib⟩ := h
  cases c with
  | true =>
      obtain ⟨h1, h2, h3, h4, h5⟩ :=
        stepCreate_preserves a a (sameTuple_refl a) hva db pa pb
          (by simpa [succCount] using hcount) (by simpa [succCount] using hle)
          hfa hfb hia
      refine ⟨?_, ?_, ?_, ?_, ?_, ?_⟩
      · simpa [raceStep, succCount] using h1
      · simpa [raceStep, succCount] using h2
      · simpa [raceStep] using h3
      · simpa [raceStep] using h4
      · simpa [raceStep] using h5
      · simpa [raceStep] using hib
  | false =>
      obtain ⟨h1, h2, h3, h4, h5⟩ :=
        stepCreate_preserves a b hab hvb db pb pa
          (by
            have h' : tupleCount db a =
                (if isSuccess pa = true then 1 else 0) +
                  (if isSuccess pb = true then 1 else 0) := by
              simpa [succCount] using hcount
            omega)
          (by
            have h' : (if isSuccess pa = true then 1 else 0) +
                (if isSuccess pb = true then 1 else 0) ≤ 1 := by
              simpa [succCount] using hle
            omega)
          hfb hfa hib
      refine ⟨?_, ?_, ?_, ?_, ?_, ?_⟩
      · simp only [raceStep, succCount] at h1 ⊢
        omega
      · simp only [raceStep, succCount] at h2 ⊢
        omega
      · simpa [raceStep] using h4
      · simpa [raceStep] using h3
      · simpa [raceStep] using hia
      · simpa [raceStep] using h5

/-- A whole schedule preserves the race invariant. -/
theorem raceRun_preserves (a b : Annot) (hab : sameTuple b a = true)
    (hva : validAnnot a = true) (hvb : validAnnot b = true)
    (sched : List Bool) (r : Race) (h : RaceInv a r) :
    RaceInv a (raceRun a b r sched) := by
  induction sched generalizing r with
  | nil => simpa [raceRun] using h
  | cons c cs ih =>
      simp only [raceRun]
      exact ih _ (raceStep_preserves a b hab hva hvb r c h)

/-- A finished, non-`invalid` phase either succeeded or failed on one of
the three duplicate checks. -/
theorem phase_done_cases (p : Phase) (hd : isDone p = true)
    (hi : p ≠ .done .invalid) : isSuccess p = true ∨ isDupFail p = true := by
  cases p with
  | start => simp [isDone] at hd
  | preChecked => simp [isDone] at hd
  | readyInsert => simp [isDone] at hd
  | done o => cases o <;> simp_all [isSuccess, isDupFail]

/-- A duplicate failure is not a success. -/
theorem not_success_of_dupFail (p : Phase) (h : isDupFail p = true) :
    isSuccess p = false := by
  cases p with
  | start => simp [isDupFail] at h
  | preChecked => simp [isDupFail] at h
  | readyInsert => simp [isDupFail] at h
  | done o => cases o <;> simp_all [isSuccess, isDupFail]

/-- Claim C1, amended.  For a fixed `(documentId, userId, startOffset,
endOffset)` tuple at most one annotation exists at any time, enforced
atomically at the storage layer by the unique compound index: for every
interleaving of two concurrent create requests with identical tuples that
runs both to completion, exactly one succeeds and the other fails at one of
the three duplicate checks, and the store holds exactly one record with the
tuple (no interleaving produces two).  Amendment: the losing request is not
always reported with the `Duplicate annotation` error — when the duplicate
is only caught by the pre-save hook or the unique index, the handler's
generic catch reports `Failed to create annotation` instead. -/
theorem c1_race_amended (a b : Annot) (db0 : List Annot) (sched : List Bool)
    (hab : sameTuple b a = true) (hva : validAnnot a = true)
    (hvb : validAnnot b = true)
    (h0 : dupExists db0 a.documentId a.userId a.startOffset a.endOffset = false)
    (hda : isDone (raceRun a b ⟨db0, .start, .start⟩ sched).pa = true)
    (hdb : isDone (raceRun a b ⟨db0, .start, .start⟩ sched).pb = true) :
    ((isSuccess (raceRun a b ⟨db0, .start, .start⟩ sched).pa = true ∧
      isDupFail (raceRun a b ⟨db0, .start, .start⟩ sched).pb = true) ∨
     (isSuccess (raceRun a b ⟨db0, .start, .start⟩ sched).pb = true ∧
      isDupFail (raceRun a b ⟨db0, .start, .start⟩ sched).pa = true)) ∧
    tupleCount (raceRun a b ⟨db0, .start, .start⟩ sched).db a = 1 := by
  have hinv0 : RaceInv a ⟨db0, .start, .start⟩ := by
    refine ⟨?_, ?_, ?_, ?_, ?_, ?_⟩
    · simpa [succCount, isSuccess] using (dupExists_false_iff db0 a).1 h0
    · simp [succCount, isSuccess]
    · simp [isDupFail]
    · simp [isDupFail]
    · simp
    · simp
  obtain ⟨hc, hl, hA, hB, hiA, hiB⟩ :=
    raceRun_preserves a b hab hva hvb sched ⟨db0, .start, .start⟩ hinv0
  rcases phase_done_cases _ hda hiA with hsA | hfA
  · rcases phase_done_cases _ hdb hiB with hsB | hfB
    · exfalso
      simp [succCount, hsA, hsB] at hl
    · refine ⟨Or.inl ⟨hsA, hfB⟩, ?_⟩
      have hnsB := not_success_of_dupFail _ hfB
      simp [succCount, hsA, hnsB] at hc
      omega
  · have hsB := hA hfA
    refine ⟨Or.inr ⟨hsB, hfA⟩, ?_⟩
    have hnsA := not_success_of_dupFail _ hfA
    simp [succCount, hsB, hnsA] at hc
    omega

/-- Claim C1, counterexample to the claim as stated: in the interleaving
`raceSched` both requests pass the handler's duplicate pre-check before
either inserts; request A then wins and request B's duplicate is detected
by the pre-save hook, whose error reaches the generic catch — so B receives
`Failed to create annotation`, not the claimed `Duplicate annotation`. -/
theorem c1_counterexample :
    (raceRun raceA raceB ⟨[], .start, .start⟩ raceSched).pa = .done .success ∧
    (raceRun raceA raceB ⟨[], .start, .start⟩ raceSched).pb = .done .dupHook ∧
    outcomeMessage .dupHook = some "Failed to create annotation" ∧
    outcomeMessage .dupHook ≠ some "Duplicate annotation" := by
  refine ⟨by decide, by decide, rfl, by decide⟩

/-- Claim C1, witness: the amended theorem applied to the concrete race
fixture. -/
theorem c1_race_amended_witness :
    ((isSuccess (raceRun raceA raceB ⟨[], .start, .start⟩ raceSched).pa = true ∧
      isDupFail (raceRun raceA raceB ⟨[], .start, .start⟩ raceSched).pb = true) ∨
     (isSuccess (raceRun raceA raceB ⟨[], .start, .start⟩ raceSched).pb = true ∧
      isDupFail (raceRun raceA raceB ⟨[], .start, .start⟩ raceSched).pa = true)) ∧
    tupleCount (raceRun raceA raceB ⟨[], .start, .start⟩ raceSched).db raceA = 1 :=
  c1_race_amended raceA raceB [] raceSched (by decide) (by decide) (by decide)
    (by decide) (by decide) (by decide)

/-- Claim C5: a join-document request for a document the user lacks access
to (including a nonexistent document, for which the access check is false)
emits only a targeted error to the requester; the server state, the
presence registry, and the connection's room membership are unchanged, and
no broadcast is sent to any room. -/
theorem c5_join_denied (docs : List (Nat × Doc)) (st : ServerState)
    (conn : Conn) (documentId : Nat)
    (h : hasDocumentAccess docs conn.user.id documentId = false) :
    joinDocument docs st conn documentId =
      (st, conn, [Action.emitError conn.user.socketId "Access denied to document"]) := by
  simp [joinDocument, h]

/-- Claim C5, witness: denial for an inaccessible document and for a
nonexistent one, both leaving every state component untouched. -/
theorem c5_join_denied_witness :
    joinDocument docsForeign stTwo ⟨uC, []⟩ 5 =
      (stTwo, ⟨uC, []⟩, [Action.emitError 30 "Access denied to document"]) ∧
    joinDocument docsMain stTwo ⟨uA, [5]⟩ 77 =
      (stTwo, ⟨uA, [5]⟩, [Action.emitError 10 "Access denied to document"]) :=
  ⟨c5_join_denied docsForeign stTwo ⟨uC, []⟩ 5 (by decide),
   c5_join_denied docsMain stTwo ⟨uA, [5]⟩ 77 (by decide)⟩

/-- Claim C2, counterexample to the claim as stated: user 3 created
annotation 1 on document 5 but has since lost all access (document 5 is
owned by user 9 with no collaborators), yet their `update-annotation`
succeeds — the handler checks only creatorship, performs the store update
and broadcasts, instead of failing with an access error. -/
theorem c2_counterexample :
    hasDocumentAccess docsForeign uC.id aRec.documentId = false ∧
    updateAnnot stTwo ⟨uC, []⟩ ⟨1, none, some true, none⟩ =
      ({ stTwo with annots := [⟨1, 5, 3, 10, 20, "text", "note", "green", true⟩] },
       [Action.dbUpdate ⟨1, 5, 3, 10, 20, "text", "note", "green", true⟩,
        Action.annotUpdated 5 ⟨1, 5, 3, 10, 20, "text", "note", "green", true⟩]) := by
  refine ⟨by decide, by decide⟩

/-- Claim C2, amended: access is re-checked through the Access Gate on
every `join-document` and every `create-annotation`, which fail with a
targeted error and no store operation when access is absent; but
`update-annotation` performs no document-access check at all (it authorizes
solely by the creator test) and `delete-annotation` authorizes solely by
creator-or-document-owner — in particular a creator who has lost document
access can still update and delete their own annotation. -/
theorem c2_access_amended :
    (∀ (docs : List (Nat × Doc)) (st : ServerState) (conn : Conn) (documentId : Nat),
      hasDocumentAccess docs conn.user.id documentId = false →
      joinDocument docs st conn documentId =
        (st, conn, [Action.emitError conn.user.socketId "Access denied to document"])) ∧
    (∀ (docs : List (Nat × Doc)) (st : ServerState) (conn : Conn) (msg : CreateMsg),
      hasDocumentAccess docs conn.user.id msg.documentId = false →
      createAnnot docs st conn msg =
        (st, [Action.emitError conn.user.socketId "Access denied"])) ∧
    (∀ (st : ServerState) (conn : Conn) (msg : UpdateMsg) (a : Annot),
      findById st.annots msg.id = some a →
      (a.userId == conn.user.id) = false →
      updateAnnot st conn msg =
        (st, [Action.emitError conn.user.socketId "Cannot update others annotations"])) ∧
    (∀ (st : ServerState) (conn : Conn) (msg : UpdateMsg) (a : Annot),
      findById st.annots msg.id = some a →
      (a.userId == conn.user.id) = true →
      validAnnot (updRecord a msg) = true →
      updateAnnot st conn msg =
        ({ st with annots := replaceById st.annots (updRecord a msg) },
         [Action.dbUpdate (updRecord a msg),
          Action.annotUpdated a.documentId (updRecord a msg)])) ∧
    (∀ (docs : List (Nat × Doc)) (st : ServerState) (conn : Conn)
        (msg : DeleteMsg) (a : Annot),
      findById st.annots msg.annotId = some a →
      (a.userId == conn.user.id) = true →
      hasDocumentAccess docs conn.user.id a.documentId = false →
      deleteAnnot docs st conn msg =
        ({ st with annots := removeById st.annots msg.annotId },
         [Action.dbDelete msg.annotId,
          Action.annotDeleted a.documentId msg.annotId])) := by
  refine ⟨?_, ?_, ?_, ?_, ?_⟩
  · intro docs st conn documentId h
    simp [joinDocument, h]
  · intro docs st conn msg h
    simp [createAnnot, h]
  · intro st conn msg a hfind hne
    simp [updateAnnot, hfind, hne]
  · intro st conn msg a hfind hcr hval
    simp [updateAnnot, hfind, hcr, updRecord] at hval ⊢
    simp [hval]
  · intro docs st conn msg a hfind hcr hacc
    cases halGet : alGet docs a.documentId with
    | none => simp [deleteAnnot, isDocOwner, hfind, hcr, halGet]
    | some d =>
        have howner : (d.owner == conn.user.id) = false := by
          simp [hasDocumentAccess, halGet, Bool.or_eq_false_iff] at hacc
          simpa using hacc.1
        simp [deleteAnnot, isDocOwner, hfind, hcr, halGet, howner]

/-- Claim C2, witness: the access-denied create path, the non-creator
update rejection, and the lost-access creator's update and delete all
instantiated on concrete fixtures. -/
theorem c2_access_amended_witness :
    (createAnnot docsForeign stTwo ⟨uC, []⟩ ⟨5, 30, 40, "s", "c"⟩ =
      (stTwo, [Action.emitError 30 "Access denied"])) ∧
    (updateAnnot stTwo ⟨uB, []⟩ ⟨1, none, some true, none⟩ =
      (stTwo, [Action.emitError 20 "Cannot update others annotations"])) ∧
    (deleteAnnot docsForeign stTwo ⟨uC, []⟩ ⟨1, none⟩ =
      ({ stTwo with annots := [] },
       [Action.dbDelete 1, Action.annotDeleted 5 1])) :=
  ⟨(c2_access_amended.2.1) docsForeign stTwo ⟨uC, []⟩ ⟨5, 30, 40, "s", "c"⟩ (by decide),
   (c2_access_amended.2.2.1) stTwo ⟨uB, []⟩ ⟨1, none, some true, none⟩ aRec (by decide) (by decide),
   (c2_access_amended.2.2.2.2) docsForeign stTwo ⟨uC, []⟩ ⟨1, none⟩ aRec
     (by decide) (by decide) (by decide)⟩

/-- Claim C4: `delete-annotation` succeeds exactly when the requester is
the annotation's creator or the owner of the annotation's document (either
path suffices, so a document owner who is not the creator succeeds); when
neither holds the requester receives only a targeted error, no broadcast is
emitted, and the store is unchanged; on success the record is removed and
an `annotation-deleted` notice carrying only the annotation id and document
id is broadcast to the whole room. -/
theorem c4_delete_auth (docs : List (Nat × Doc)) (st : ServerState)
    (conn : Conn) (msg : DeleteMsg) (a : Annot)
    (hfind : findById st.annots msg.annotId = some a) :
    ((a.userId == conn.user.id) = false →
      isDocOwner docs a.documentId conn.user.id = false →
      deleteAnnot docs st conn msg =
        (st, [Action.emitError conn.user.socketId "Cannot delete this annotation"])) ∧
    ((a.userId == conn.user.id) = true ∨
      isDocOwner docs a.documentId conn.user.id = true →
      deleteAnnot docs st conn msg =
        ({ st with annots := removeById st.annots msg.annotId },
         [Action.dbDelete msg.annotId,
          Action.annotDeleted a.documentId msg.annotId])) := by
  constructor
  · intro hcr hown
    simp [deleteAnnot, hfind, hcr, hown]
  · intro h
    rcases h with hcr | hown
    · simp [deleteAnnot, hfind, hcr]
    · simp [deleteAnnot, hfind, hown]

/-- Claim C4, witness: the document owner (user 1, not the creator)
deletes annotation 1 successfully; collaborator 2 (neither creator nor
owner) is rejected with only a targeted error and an unchanged store. -/
theorem c4_delete_auth_witness :
    deleteAnnot docsMain stTwo ⟨uA, [5]⟩ ⟨1, none⟩ =
      ({ stTwo with annots := [] },
       [Action.dbDelete 1, Action.annotDeleted 5 1]) ∧
    deleteAnnot docsMain stTwo ⟨uB, [5]⟩ ⟨1, none⟩ =
      (stTwo, [Action.emitError 20 "Cannot delete this annotation"]) :=
  ⟨(c4_delete_auth docsMain stTwo ⟨uA, [5]⟩ ⟨1, none⟩ aRec (by decide)).2
      (Or.inr (by decide)),
   (c4_delete_auth docsMain stTwo ⟨uB, [5]⟩ ⟨1, none⟩ aRec (by decide)).1
      (by decide) (by decide)⟩

/-- Claim C6: for every mutating handler, an annotation broadcast appears
in the trace only after the corresponding store operation, and every
`annotation-created` broadcast carries a record present in the final store
— so a create that fails (access denial, duplicate, validation, or store
failure) emits only a targeted error and never an `annotation-created`. -/
theorem c6_broadcast_after_store :
    ∀ (docs : List (Nat × Doc)) (st : ServerState) (conn : Conn)
      (cmsg : CreateMsg) (umsg : UpdateMsg) (dmsg : DeleteMsg),
      traceOrdered false false false (createAnnot docs st conn cmsg).2 = true ∧
      broadcastsBacked (createAnnot docs st conn cmsg).1.annots
        (createAnnot docs st conn cmsg).2 = true ∧
      traceOrdered false false false (updateAnnot st conn umsg).2 = true ∧
      traceOrdered false false false (deleteAnnot docs st conn dmsg).2 = true := by
  intro docs st conn cmsg umsg dmsg
  refine ⟨?_, ?_, ?_, ?_⟩
  · simp only [createAnnot]
    repeat' split
    all_goals simp [traceOrdered]
  · simp only [createAnnot]
    repeat' split
    all_goals simp [broadcastsBacked]
  · simp only [updateAnnot]
    repeat' split
    all_goals simp [traceOrdered]
  · simp only [deleteAnnot]
    repeat' split
    all_goals simp [traceOrdered]

/-- Claim C7, counterexample to the claim as stated: the room for document
5 holds users 1 and 2; user 3's connection, which is in no room at all,
sends `leave-document(5)` — yet a `user-left` broadcast for user 3 is
emitted to the room, and a second connection (socket 99) of user 1 sending
the same request deletes user 1's presence entry that was established by
socket 10.  The claim's "no-op, no broadcast" fails on both counts. -/
theorem c7_counterexample :
    (leaveDocument stTwo ⟨uC, []⟩ 5).2.2 = [Action.userLeft 5 30 3] ∧
    (leaveDocument stTwo ⟨uC, []⟩ 5).2.2 ≠ [] ∧
    (leaveDocument stTwo ⟨⟨1, "alice", "Alice", "red", 99⟩, []⟩ 5).1.documentUsers =
      [(5, [(2, uB)])] := by
  refine ⟨by decide, by decide, by decide⟩

/-- Claim C7, amended: `leave-document` never emits an error; when the
document has no presence-registry entry it is a complete no-op on server
state; but when an entry exists the handler removes the requesting user's
id from it regardless of whether this connection is in the room (also
removing an entry established by another connection of the same user), and
broadcasts `user-left` for the requester whenever the entry remains
non-empty, garbage-collecting the entry when it empties. -/
theorem c7_leave_amended :
    (∀ (st : ServerState) (conn : Conn) (documentId sock : Nat) (m : String),
      Action.emitError sock m ∉ (leaveDocument st conn documentId).2.2) ∧
    (∀ (st : ServerState) (conn : Conn) (documentId : Nat),
      alGet st.documentUsers documentId = none →
      (leaveDocument st conn documentId).1 = st ∧
      (leaveDocument st conn documentId).2.2 = []) ∧
    (∀ (st : ServerState) (conn : Conn) (documentId : Nat)
        (users : List (Nat × SocketUser)),
      alGet st.documentUsers documentId = some users →
      (alDelete users conn.user.id).length ≠ 0 →
      (leaveDocument st conn documentId).1 =
        { st with
          documentUsers :=
            alSet st.documentUsers documentId (alDelete users conn.user.id) } ∧
      (leaveDocument st conn documentId).2.2 =
        [Action.userLeft documentId conn.user.socketId conn.user.id]) ∧
    (∀ (st : ServerState) (conn : Conn) (documentId : Nat)
        (users : List (Nat × SocketUser)),
      alGet st.documentUsers documentId = some users →
      (alDelete users conn.user.id).length = 0 →
      (leaveDocument st conn documentId).1 =
        { st with documentUsers := alDelete st.documentUsers documentId } ∧
      (leaveDocument st conn documentId).2.2 = []) := by
  refine ⟨?_, ?_, ?_, ?_⟩
  · intro st conn documentId sock m
    cases hget : alGet st.documentUsers documentId with
    | none => simp [leaveDocument, hget]
    | some users =>
        by_cases hz : (alDelete users conn.user.id).length = 0
        · simp [leaveDocument, hget, hz]
        · simp [leaveDocument, hget, hz]
  · intro st conn documentId hget
    simp [leaveDocument, hget]
  · intro st conn documentId users hget hz
    simp [leaveDocument, hget, hz]
  · intro st conn documentId users hget hz
    simp [leaveDocument, hget, hz]

/-- Claim C7, witness: the amended theorem instantiated — no registry
entry for document 9 (silent no-op), and the unconditional removal plus
spurious broadcast for a connection not in document 5's room. -/
theorem c7_leave_amended_witness :
    ((leaveDocument stTwo ⟨uC, []⟩ 9).1 = stTwo ∧
     (leaveDocument stTwo ⟨uC, []⟩ 9).2.2 = []) ∧
    ((leaveDocument stTwo ⟨uC, []⟩ 5).1 =
      { stTwo with documentUsers := alSet stTwo.documentUsers 5 [(1, uA), (2, uB)] } ∧
     (leaveDocument stTwo ⟨uC, []⟩ 5).2.2 = [Action.userLeft 5 30 3]) :=
  ⟨c7_leave_amended.2.1 stTwo ⟨uC, []⟩ 9 (by decide),
   c7_leave_amended.2.2.1 stTwo ⟨uC, []⟩ 5 [(1, uA), (2, uB)] (by decide) (by decide)⟩

/-- Claim C8: for `update-annotation` and `delete-annotation` the document
id used for authorization and broadcast targeting is re-derived from the
stored record; the client-declared document id field of the message has no
influence — two runs differing only in that field produce identical states
and identical traces. -/
theorem c8_client_docid_ignored :
    ∀ (st : ServerState) (conn : Conn) (docs : List (Nat × Doc)) (id : Nat)
      (c : Option String) (r : Option Bool) (d1 d2 : Option Nat)
      (aid : Nat) (e1 e2 : Option Nat),
      updateAnnot st conn ⟨id, c, r, d1⟩ = updateAnnot st conn ⟨id, c, r, d2⟩ ∧
      deleteAnnot docs st conn ⟨aid, e1⟩ = deleteAnnot docs st conn ⟨aid, e2⟩ := by
  intro st conn docs id c r d1 d2 aid e1 e2
  exact ⟨rfl, rfl⟩

/-- The leave-previous-rooms loop of `join-document` only ever appends
`user-left` broadcasts for the joining user. -/
theorem foldl_leave_events_userLeft (user : SocketUser) (rooms : List Nat)
    (du0 : Registry) (evs0 : List Action)
    (h0 : ∀ act ∈ evs0, ∃ d, act = Action.userLeft d user.socketId user.id) :
    ∀ act ∈ (rooms.foldl (leaveRoomStep user) (du0, evs0)).2,
      ∃ d, act = Action.userLeft d user.socketId user.id := by
  induction rooms generalizing du0 evs0 with
  | nil => simpa using h0
  | cons room t ih =>
      simp only [List.foldl_cons]
      cases hget : alGet du0 room with
      | none =>
          simp only [leaveRoomStep, hget]
          exact ih du0 evs0 h0
      | some users =>
          by_cases hz : (alDelete users user.id).length = 0
          · simp only [leaveRoomStep, hget, hz, if_true]
            exact ih _ evs0 h0
          · simp only [leaveRoomStep, hget, hz, if_false]
            apply ih
            intro act hact
            rcases List.mem_append.1 hact with hl | hr
            · exact h0 act hl
            · refine ⟨room, ?_⟩
              simpa using hr

/-- Claim C3: a connection in document A's room joining document B (with
access) first completes the leave sequence for A — broadcasting `user-left`
to A's remaining members — then broadcasts `user-joined` for B to B's
existing members (the sender excluded by `socket.to`), registers the joiner
in B's presence registry, and finally sends exactly one `active-users`
snapshot, taken after the registration, to the joiner only; the connection
ends up in room B alone. -/
theorem c3_switch_rooms (docs : List (Nat × Doc)) (st : ServerState)
    (conn : Conn) (aDoc bDoc : Nat) (usersA : List (Nat × SocketUser))
    (hrooms : conn.rooms = [aDoc])
    (hA : alGet st.documentUsers aDoc = some usersA)
    (hrem : (alDelete usersA conn.user.id).length ≠ 0)
    (hacc : hasDocumentAccess docs conn.user.id bDoc = true) :
    (joinDocument docs st conn bDoc).2.2 =
      [Action.userLeft aDoc conn.user.socketId conn.user.id,
       Action.userJoined bDoc conn.user.socketId conn.user.toPublic,
       Action.activeUsers conn.user.socketId
         (getActiveUsers (joinDocument docs st conn bDoc).1.documentUsers bDoc)
         bDoc] ∧
    (∃ usersB,
      alGet (joinDocument docs st conn bDoc).1.documentUsers bDoc = some usersB ∧
      alGet usersB conn.user.id = some conn.user) ∧
    (joinDocument docs st conn bDoc).2.1.rooms = [bDoc] := by
  refine ⟨?_, ?_, ?_⟩
  · simp only [joinDocument, hacc, if_true, hrooms, List.foldl_cons, List.foldl_nil,
      leaveRoomStep, hA, hrem, if_false]
    simp
  · simp only [joinDocument, hacc, if_true, hrooms, List.foldl_cons, List.foldl_nil,
      leaveRoomStep, hA, hrem, if_false]
    exact ⟨_, alGet_alSet_self _ _ _, alGet_alSet_self _ _ _⟩
  · simp only [joinDocument, hacc, if_true, hrooms, List.foldl_cons, List.foldl_nil,
      leaveRoomStep, hA, hrem, if_false]

/-- Claim C3, witness: user 1, in document 5's room with user 2, joins
document 6. -/
theorem c3_switch_rooms_witness :
    (joinDocument docsMain stTwo ⟨uA, [5]⟩ 6).2.2 =
      [Action.userLeft 5 10 1,
       Action.userJoined 6 10 uA.toPublic,
       Action.activeUsers 10
         (getActiveUsers (joinDocument docsMain stTwo ⟨uA, [5]⟩ 6).1.documentUsers 6)
         6] ∧
    (∃ usersB,
      alGet (joinDocument docsMain stTwo ⟨uA, [5]⟩ 6).1.documentUsers 6 = some usersB ∧
      alGet usersB 1 = some uA) ∧
    (joinDocument docsMain stTwo ⟨uA, [5]⟩ 6).2.1.rooms = [6] :=
  c3_switch_rooms docsMain stTwo ⟨uA, [5]⟩ 5 6 [(1, uA), (2, uB)]
    rfl (by decide) (by decide) (by decide)

/-- Claim C10: on every successful `join-document` the joiner is
registered in the presence registry before the `active-users` snapshot is
taken, so the snapshot sent back to the joiner contains the joiner's own
`SocketUser` entry (which carries the connection's socket id); everything
before the `user-joined`/`active-users` pair is only `user-left` cleanup
for previously joined rooms. -/
theorem c10_snapshot_contains_joiner (docs : List (Nat × Doc))
    (st : ServerState) (conn : Conn) (documentId : Nat)
    (hacc : hasDocumentAccess docs conn.user.id documentId = true) :
    ∃ (leaveEvents : List Action) (us : List SocketUser),
      (joinDocument docs st conn documentId).2.2 =
        leaveEvents ++
          [Action.userJoined documentId conn.user.socketId conn.user.toPublic,
           Action.activeUsers conn.user.socketId us documentId] ∧
      (∀ act ∈ leaveEvents,
        ∃ d, act = Action.userLeft d conn.user.socketId conn.user.id) ∧
      conn.user ∈ us := by
  simp only [joinDocument, hacc, if_true]
  refine ⟨_, _, rfl, ?_, ?_⟩
  · exact foldl_leave_events_userLeft conn.user conn.rooms st.documentUsers []
      (by intro act h; simp at h)
  · simp only [getActiveUsers, alGet_alSet_self]
    exact mem_values_alSet _ _ _

/-- Claim C10, witness: collaborator 2 joins document 5; the snapshot the
joiner receives contains user 2's own entry with socket id 20. -/
theorem c10_snapshot_witness :
    ∃ (leaveEvents : List Action) (us : List SocketUser),
      (joinDocument docsMain stTwo ⟨uB, []⟩ 5).2.2 =
        leaveEvents ++
          [Action.userJoined 5 20 uB.toPublic,
           Action.activeUsers 20 us 5] ∧
      (∀ act ∈ leaveEvents, ∃ d, act = Action.userLeft d 20 2) ∧
      uB ∈ us :=
  c10_snapshot_contains_joiner docsMain stTwo ⟨uB, []⟩ 5 (by decide)

/-- The `disconnect` fold expressed entry by entry. -/
theorem foldl_disconnectStep (user : SocketUser) (l : Registry)
    (r0 : Registry) (evs0 : List Action) :
    l.foldl (disconnectStep user) (r0, evs0) =
      (r0 ++ sweepRegistry user l, evs0 ++ sweepEvents user l) := by
  induction l generalizing r0 evs0 with
  | nil => simp [sweepRegistry, sweepEvents]
  | cons e t ih =>
      simp only [List.foldl_cons, sweepRegistry, sweepEvents]
      by_cases hh : alHas e.2 user.id = true
      · by_cases hz : (alDelete e.2 user.id).length = 0
        · simp only [disconnectStep, hh, hz, if_true]
          rw [ih]
          simp
        · simp only [disconnectStep, hh, hz, if_true, if_false]
          rw [ih]
          simp
      · simp only [disconnectStep, hh, if_false]
        rw [ih]
        simp

/-- The sweep result has no entry for a key absent from the registry. -/
theorem alGet_sweepRegistry_none (user : SocketUser) (l : Registry) (k : Nat)
    (hk : ¬ k ∈ l.map Prod.fst) : alGet (sweepRegistry user l) k = none := by
  induction l with
  | nil => simp [sweepRegistry, alGet]
  | cons e t ih =>
      obtain ⟨k', us'⟩ := e
      simp only [List.map_cons, List.mem_cons, not_or] at hk
      obtain ⟨hk1, hk2⟩ := hk
      have hne : ¬ (k' = k) := fun h => hk1 h.symm
      simp only [sweepRegistry]
      by_cases hh : alHas us' user.id = true
      · by_cases hz : (alDelete us' user.id).length = 0
        · simp [hh, hz, ih hk2]
        · simp [hh, hz, alGet, hne, ih hk2]
      · simp [hh, alGet, hne, ih hk2]

/-- Effect of the `disconnect` sweep on a registry entry that contains the
disconnecting user: when members remain, the entry keeps the remaining
members and a `user-left` broadcast is produced; when the entry empties,
it is garbage-collected. -/
theorem sweep_found (user : SocketUser) (l : Registry) (k : Nat)
    (users : List (Nat × SocketUser))
    (hnd : (l.map Prod.fst).Nodup)
    (hget : alGet l k = some users)
    (hhas : alHas users user.id = true) :
    ((alDelete users user.id).length ≠ 0 →
      alGet (sweepRegistry user l) k = some (alDelete users user.id) ∧
      Action.userLeft k user.socketId user.id ∈ sweepEvents user l) ∧
    ((alDelete users user.id).length = 0 →
      alGet (sweepRegistry user l) k = none) := by
  induction l with
  | nil => simp [alGet] at hget
  | cons e t ih =>
      obtain ⟨k', us'⟩ := e
      simp only [List.map_cons, List.nodup_cons] at hnd
      obtain ⟨hnotin, hndt⟩ := hnd
      by_cases hk : k' = k
      · have husers : us' = users := by
          simpa [alGet, hk] using hget
        subst husers
        subst hk
        constructor
        · intro hne
          constructor
          · simp [sweepRegistry, hhas, hne, alGet]
          · simp [sweepEvents, hhas, hne]
        · intro hz
          simp only [sweepRegistry, hhas, hz, if_true, List.nil_append]
          exact alGet_sweepRegistry_none user t k' hnotin
      · have hget' : alGet t k = some users := by
          simpa [alGet, hk] using hget
        obtain ⟨ih1, ih2⟩ := ih hndt hget'
        constructor
        · intro hne
          obtain ⟨iha, ihb⟩ := ih1 hne
          constructor
          · by_cases hh : alHas us' user.id = true
            · by_cases hz : (alDelete us' user.id).length = 0
              · simp [sweepRegistry, hh, hz, iha]
              · simp [sweepRegistry, hh, hz, alGet, hk, iha]
            · simp [sweepRegistry, hh, alGet, hk, iha]
          · by_cases hh : alHas us' user.id = true
            · by_cases hz : (alDelete us' user.id).length = 0
              · simp [sweepEvents, hh, hz, ihb]
              · simp [sweepEvents, hh, hz, ihb]
            · simp [sweepEvents, hh, ihb]
        · intro hz0
          have iha := ih2 hz0
          by_cases hh : alHas us' user.id = true
          · by_cases hz : (alDelete us' user.id).length = 0
            · simp [sweepRegistry, hh, hz, iha]
            · simp [sweepRegistry, hh, hz, alGet, hk, iha]
          · simp [sweepRegistry, hh, alGet, hk, iha]

/-- The `disconnect` handler equals the sweep of the whole registry. -/
theorem disconnectHandler_eq (st : ServerState) (conn : Conn) :
    disconnectHandler st conn =
      ({ st with documentUsers := sweepRegistry conn.user st.documentUsers },
       sweepEvents conn.user st.documentUsers) := by
  simp [disconnectHandler, foldl_disconnectStep]

/-- Claim C9: a connection disconnecting while its user is present in
document D's registry performs the same removal-and-notify sequence as an
explicit leave, without any `leave-document` message: the user's entry is
removed and, when other members remain, a `user-left` notice is broadcast
to them; when the member set empties, the registry entry itself is
garbage-collected. -/
theorem c9_disconnect_notifies (st : ServerState) (conn : Conn)
    (documentId : Nat) (users : List (Nat × SocketUser))
    (hnd : (st.documentUsers.map Prod.fst).Nodup)
    (hget : alGet st.documentUsers documentId = some users)
    (hhas : alHas users conn.user.id = true) :
    ((alDelete users conn.user.id).length ≠ 0 →
      Action.userLeft documentId conn.user.socketId conn.user.id ∈
        (disconnectHandler st conn).2 ∧
      alGet (disconnectHandler st conn).1.documentUsers documentId =
        some (alDelete users conn.user.id)) ∧
    ((alDelete users conn.user.id).length = 0 →
      alGet (disconnectHandler st conn).1.documentUsers documentId = none) := by
  have h := sweep_found conn.user st.documentUsers documentId users hnd hget hhas
  rw [disconnectHandler_eq]
  exact ⟨fun hne => ⟨(h.1 hne).2, (h.1 hne).1⟩, h.2⟩

/-- Claim C9, witness: user 1 disconnects from document 5 leaving user 2
behind (broadcast plus trimmed entry), and user 3 disconnects from a room
where they were alone (entry garbage-collected). -/
theorem c9_disconnect_notifies_witness :
    (Action.userLeft 5 10 1 ∈ (disconnectHandler stTwo ⟨uA, []⟩).2 ∧
     alGet (disconnectHandler stTwo ⟨uA, []⟩).1.documentUsers 5 = some [(2, uB)]) ∧
    alGet (disconnectHandler ⟨[(7, [(3, uC)])], [], 0⟩ ⟨uC, []⟩).1.documentUsers 7 =
      none :=
  ⟨(c9_disconnect_notifies stTwo ⟨uA, []⟩ 5 [(1, uA), (2, uB)]
      (by decide) (by decide) (by decide)).1 (by decide),
   (c9_disconnect_notifies ⟨[(7, [(3, uC)])], [], 0⟩ ⟨uC, []⟩ 7 [(3, uC)]
      (by decide) (by decide) (by decide)).2 (by decide)⟩

end CollabDoc
